import Mathlib

set_option linter.unusedVariables false

deriving instance DecidableEq for Except

namespace Powernap

/-!
Shallow embedding of the query subsystem of the Powernap repository:
src/powernap/query/transformer.py, src/powernap/query/columns.py and
src/powernap/query/methods.py.  Raw query arguments are insertion-ordered
association lists of string keys and string values, mirroring Python dict
semantics (string-valued, as they arrive from request.args); fallible
Python code is embedded with Except, where uncaught Python exceptions
(ValueError, TypeError, AttributeError) are explicit error values.
-/

/-- Python runtime values that flow through the query pipeline.  Incoming
query-argument values are always strings; the column handlers may convert
them (DateTimeQueryColumn to a timestamp, formatted reverse lookup to an
int). -/
inductive Value
  | str (s : String)
  | int (n : Int)
  | bool (b : Bool)
  | timestamp (n : Int)
deriving DecidableEq

/-- Structured description payload of InvalidFormError as built by the
query code: either a per-field message dict or the query_construction
dict produced by methods.raise_error. -/
inductive ErrDesc
  | fields (column : String) (msgs : List String)
  | query_construction (keys : List String) (args : List String)
deriving DecidableEq

/-- Errors of the embedded code: InvalidFormError plus the uncaught Python
exceptions that the source can raise. -/
inductive Err
  | invalidForm (desc : ErrDesc)
  | valueError (s : String)
  | typeError (s : String)
  | attributeError (s : String)
deriving DecidableEq

/-- Association-list lookup with decidable string equality (Python dict
read d[k] or k in d). -/
def alookup {α : Type} : List (String × α) → String → Option α
  | [], _ => none
  | (k, v) :: rest, key => if k = key then some v else alookup rest key

/-- Python dict assignment d[k] = v: replaces the value in place when the
key is present (keeping insertion position), else appends at the end. -/
def dictSet {α : Type} (d : List (String × α)) (k : String) (v : α) : List (String × α) :=
  if (alookup d k).isSome then d.map (fun p => if p.1 = k then (k, v) else p)
  else d ++ [(k, v)]

/-- Python dict d.pop(k): removal of a key. -/
def dictRemove {α : Type} : List (String × α) → String → List (String × α)
  | [], _ => []
  | p :: rest, k => if p.1 = k then dictRemove rest k else p :: dictRemove rest k

/-- Python dict d.update(d2): sequential assignment of every pair of d2. -/
def dictUpdate {α : Type} (d : List (String × α)) (d2 : List (String × α)) : List (String × α) :=
  d2.foldl (fun acc p => dictSet acc p.1 p.2) d

/-- Test whether a string starts with the given character. -/
def strStartsWithChar (s : String) (c : Char) : Bool :=
  match s.data with
  | [] => false
  | d :: _ => d = c

/-- Drop the first character of a string (Python s[1:] on these ASCII keys). -/
def strDrop1 (s : String) : String := String.mk (s.data.drop 1)

/-- Lower-case a string (Python str.lower on ASCII input). -/
def lowerStr (s : String) : String := String.mk (s.data.map Char.toLower)

def isPySpace (c : Char) : Bool := c = ' ' || c = '\t' || c = '\n' || c = '\r'

def dropLeadingSpaces : List Char → List Char
  | [] => []
  | c :: rest => if isPySpace c then dropLeadingSpaces rest else c :: rest

def trimChars (l : List Char) : List Char :=
  dropLeadingSpaces ((dropLeadingSpaces l.reverse).reverse)

def digitsToNat (l : List Char) : Nat :=
  l.foldl (fun n c => n * 10 + (c.toNat - 48)) 0

/-- Sign-and-digits integer parse of a character list, no surrounding
whitespace. -/
def pyIntChars? (t : List Char) : Option Int :=
  let sd : Bool × List Char :=
    match t with
    | '-' :: rest => (true, rest)
    | '+' :: rest => (false, rest)
    | _ => (false, t)
  if !sd.2.isEmpty && sd.2.all Char.isDigit then
    some (if sd.1 then -(digitsToNat sd.2 : Int) else (digitsToNat sd.2 : Int))
  else none

/-- Python int(s) applied to a string: strips whitespace, accepts an
optional sign followed by digits, raises ValueError otherwise (the none
result here). -/
def pyInt? (s : String) : Option Int :=
  pyIntChars? (trimChars s.data)

/-- Python s.split on the two-character separator made of two underscores,
greedy left to right; a list without that separator comes back whole. -/
def splitDunder : List Char → List (List Char)
  | [] => [[]]
  | '_' :: '_' :: rest => [] :: splitDunder rest
  | c :: rest =>
    match splitDunder rest with
    | [] => [[c]]
    | h :: t => (c :: h) :: t

def splitCommas : List Char → List (List Char)
  | [] => [[]]
  | ',' :: rest => [] :: splitCommas rest
  | c :: rest =>
    match splitCommas rest with
    | [] => [[c]]
    | h :: t => (c :: h) :: t

/-- Modelled from json.loads restricted to the scalar elements the inside
and not_inside filters receive: quoted strings, integers and booleans. -/
def parseJsonScalar (l : List Char) : Option Value :=
  match trimChars l with
  | '"' :: rest =>
    if !rest.isEmpty && rest.getLast? = some '"' then some (.str (String.mk rest.dropLast))
    else none
  | t =>
    if t = ['t', 'r', 'u', 'e'] then some (.bool true)
    else if t = ['f', 'a', 'l', 's', 'e'] then some (.bool false)
    else (pyIntChars? t).map .int

/-- Modelled from json.loads restricted to flat arrays of scalars, the only
shape the membership filters consume; any other input counts as a decode
failure (none). -/
def jsonList? (s : String) : Option (List Value) :=
  match trimChars s.data with
  | '[' :: rest =>
    if rest.getLast? = some ']' then
      let inner := rest.dropLast
      if trimChars inner = [] then some []
      else (splitCommas inner).mapM parseJsonScalar
    else none
  | _ => none

/-- Column type tags: the sqlalchemy types registered by columns.py
(Integer, Boolean, String, UnicodeSafe, DateTime, Formatted) plus an
escape for any type not registered in the module registry. -/
inductive ColType
  | integer
  | boolean
  | string
  | unicodeSafe
  | dateTime
  | formatted
  | other (name : String)
deriving DecidableEq

/-- Classification of a model-class attribute as observed by
QueryTransformer.implement: a mapped column with a readable type, a python
property (reading .type raises AttributeError, mapped by the source to the
string key of a nonexistent PropertyQueryColumn), or an attribute for
which sqlalchemy raises InvalidRequestError (type_cls stays None). -/
inductive AttrKind
  | column (ty : ColType)
  | prop
  | invalidReq
deriving DecidableEq

/-- The target model class: its attributes (hasattr universe) with their
kinds, its exposed_fields list, and the label tables of formatted
columns (stored value paired with human-readable label). -/
structure ModelCls where
  attrs : List (String × AttrKind)
  exposed_fields : List String
  valueMaps : List (String × List (Int × String))
deriving DecidableEq

/-- Python hasattr(cls, c). -/
def hasattrCls (cls : ModelCls) (c : String) : Bool :=
  (alookup cls.attrs c).isSome

/-- Whether filter_by style keyword filtering accepts the name: the
attribute is a mapped column (anything else makes sqlalchemy raise
InvalidRequestError). -/
def isMappedColumn (cls : ModelCls) (c : String) : Bool :=
  match alookup cls.attrs c with
  | some (.column _) => true
  | _ => false

/-- Filter expressions pushed by query.filter in methods.py. -/
inductive QueryFilter
  | eqF (column : String) (v : Value)
  | neF (column : String) (v : Value)
  | icontainsF (column : String) (s : String)
  | inF (column : String) (vs : List Value)
  | notInF (column : String) (vs : List Value)
  | gtF (column : String) (v : Value)
  | gteF (column : String) (v : Value)
  | ltF (column : String) (v : Value)
  | lteF (column : String) (v : Value)
  | likeF (column : String) (v : Value)
deriving DecidableEq

/-- One accumulated transformation of the chainable query builder. -/
inductive QueryStep
  | filter_by (column : String) (v : Value)
  | filt (f : QueryFilter)
  | order_by (column : String) (desc : Bool)
deriving DecidableEq

/-- The chainable query-builder value: its primary entity, whether it
already represents a join (query from_obj holding an ORMJoin), and the
transformations accumulated so far. -/
structure Query where
  cls : ModelCls
  fromJoin : Bool
  steps : List QueryStep
deriving DecidableEq

def Query.push (q : Query) (s : QueryStep) : Query :=
  { q with steps := q.steps ++ [s] }

/-- cls.query: the fresh query on the model class. -/
def Query.base (cls : ModelCls) : Query :=
  { cls := cls, fromJoin := false, steps := [] }

/-- The signature shared by every function of methods.py. -/
abbrev MethodImpl := ModelCls → Query → Option String → Value → Except Err Query

/-- methods.raise_error: wraps the offending keys and args into the
query_construction description of an InvalidFormError (the Python list
wrapping of a bare string argument is done by the callers here, which all
pass singleton lists). -/
def raise_error (keys : List String) (args : List String) : Err :=
  .invalidForm (.query_construction keys args)

/-- Inner convert_value of methods.convert_formatted, for a column whose
type has a value_map: a value already among the labels passes unchanged, a
stored value maps to its label, anything else ends in the RuntimeError
that the decorator turns into a no-op (none here; the dead int conversion
before the final raise is omitted since its result is discarded). -/
def convert_value_cf (vm : List (Int × String)) (value : Value) : Option Value :=
  match value with
  | .str s => if (vm.map Prod.snd).contains s then some (.str s) else none
  | .int n =>
    match vm.find? (fun p => p.1 = n) with
    | some p => some (.str p.2)
    | none => none
  | _ => none

/-- methods.convert_formatted decorator: only when the named column exists
and its type is Formatted does the value conversion run; a conversion
failure (RuntimeError) returns the query unmodified. -/
def convert_formatted (f : MethodImpl) : MethodImpl := fun cls q column value =>
  match alookup cls.attrs (column.getD "") with
  | some (.column .formatted) =>
    (match convert_value_cf ((alookup cls.valueMaps (column.getD "")).getD []) value with
     | some v2 => f cls q column v2
     | none => .ok q)
  | _ => f cls q column value

/-- methods.filter_by: joined queries filter on the explicit column
expression, otherwise keyword filter_by runs and an InvalidRequestError
(non-mapped name) is translated by raise_error. -/
def filter_by_m : MethodImpl := convert_formatted fun cls q column value =>
  match column with
  | none => .error (.typeError "filter_by")
  | some c =>
    if q.fromJoin then
      if hasattrCls cls c then .ok (q.push (.filt (.eqF c value)))
      else .error (.attributeError c)
    else if isMappedColumn cls c then .ok (q.push (.filter_by c value))
    else .error (raise_error [c] [])

/-- methods.order_by: a leading minus sign selects descending order; a
target that is not an attribute of the class raises through raise_error. -/
def order_by_m : MethodImpl := convert_formatted fun cls q column value =>
  match value with
  | .str s =>
    let dt : Bool × String :=
      if strStartsWithChar s '-' then (true, strDrop1 s) else (false, s)
    if hasattrCls cls dt.2 then .ok (q.push (.order_by dt.2 dt.1))
    else .error (raise_error [dt.2] [])
  | _ => .error (.attributeError "startswith")

/-- methods.not_eq. -/
def not_eq_m : MethodImpl := convert_formatted fun cls q column value =>
  match column with
  | some c =>
    if hasattrCls cls c then .ok (q.push (.filt (.neF c value)))
    else .error (.attributeError c)
  | none => .error (.typeError "not_eq")

/-- methods.icontains: lower-cases both sides and pushes a substring
filter; the value must be a string for value.lower to exist. -/
def icontains_m : MethodImpl := convert_formatted fun cls q column value =>
  match column with
  | some c =>
    if hasattrCls cls c then
      match value with
      | .str s => .ok (q.push (.filt (.icontainsF c (lowerStr s))))
      | _ => .error (.attributeError "lower")
    else .error (.attributeError c)
  | none => .error (.typeError "icontains")

/-- methods.inside: membership filter on a JSON-encoded list; the blanket
except clause turns every failure into the unmodified query. -/
def inside_m : MethodImpl := convert_formatted fun cls q column value =>
  match column, value with
  | some c, .str s =>
    if hasattrCls cls c then
      match jsonList? s with
      | some vs => .ok (q.push (.filt (.inF c vs)))
      | none => .ok q
    else .ok q
  | _, _ => .ok q

/-- methods.not_inside: negated membership filter with the same blanket
failure tolerance. -/
def not_inside_m : MethodImpl := convert_formatted fun cls q column value =>
  match column, value with
  | some c, .str s =>
    if hasattrCls cls c then
      match jsonList? s with
      | some vs => .ok (q.push (.filt (.notInF c vs)))
      | none => .ok q
    else .ok q
  | _, _ => .ok q

/-- methods.gt. -/
def gt_m : MethodImpl := convert_formatted fun cls q column value =>
  match column with
  | some c =>
    if hasattrCls cls c then .ok (q.push (.filt (.gtF c value)))
    else .error (.attributeError c)
  | none => .error (.typeError "gt")

/-- methods.gte. -/
def gte_m : MethodImpl := convert_formatted fun cls q column value =>
  match column with
  | some c =>
    if hasattrCls cls c then .ok (q.push (.filt (.gteF c value)))
    else .error (.attributeError c)
  | none => .error (.typeError "gte")

/-- methods.lt. -/
def lt_m : MethodImpl := convert_formatted fun cls q column value =>
  match column with
  | some c =>
    if hasattrCls cls c then .ok (q.push (.filt (.ltF c value)))
    else .error (.attributeError c)
  | none => .error (.typeError "lt")

/-- methods.lte. -/
def lte_m : MethodImpl := convert_formatted fun cls q column value =>
  match column with
  | some c =>
    if hasattrCls cls c then .ok (q.push (.filt (.lteF c value)))
    else .error (.attributeError c)
  | none => .error (.typeError "lte")

/-- methods.like. -/
def like_m : MethodImpl := convert_formatted fun cls q column value =>
  match column with
  | some c =>
    if hasattrCls cls c then .ok (q.push (.filt (.likeF c value)))
    else .error (.attributeError c)
  | none => .error (.typeError "like")

/-- Lookup table of query-transform functions, the getattr over the
methods module done by handle_method; an unknown name is an
AttributeError at the caller. -/
abbrev MethodsTab := String → Option MethodImpl

def methodsImpl : MethodsTab := fun name =>
  match name with
  | "filter_by" => some filter_by_m
  | "order_by" => some order_by_m
  | "not_eq" => some not_eq_m
  | "icontains" => some icontains_m
  | "inside" => some inside_m
  | "not_inside" => some not_inside_m
  | "gt" => some gt_m
  | "gte" => some gte_m
  | "lt" => some lt_m
  | "lte" => some lte_m
  | "like" => some like_m
  | _ => none

/-- The query-column handler classes of columns.py. -/
inductive QueryColumnCls
  | base
  | integer
  | boolean
  | string
  | dateTime
  | formatted
deriving DecidableEq

/-- The invalid attribute of each handler class: method names whose
dispatch raise_error rejects up front.  Only the Integer and Boolean
handlers deny anything; the base class deny-list is empty. -/
def invalid_methods : QueryColumnCls → List String
  | .integer => ["icontains"]
  | .boolean => ["icontains"]
  | _ => []

/-- BaseQueryColumn.check_exposed_column: a truthy column name outside
exposed_fields raises the field-exposure InvalidFormError (None and the
empty string are falsy in Python and skip the check). -/
def check_exposed_column (cls : ModelCls) (column : Option String) : Except Err Unit :=
  match column with
  | none => .ok ()
  | some c =>
    if c = "" then .ok ()
    else if cls.exposed_fields.contains c then .ok ()
    else .error (.invalidForm (.fields c ["Invalid Argument: Field not exposed"]))

/-- BaseQueryColumn.handle_method, parametrized by the methods-module
lookup table: a missing func defaults to filter_by, a func on the invalid
list raises through raise_error before any module function is looked up
or called, otherwise the named module function runs. -/
def handle_methodWith (mtab : MethodsTab) (qc : QueryColumnCls) (cls : ModelCls) (q : Query)
    (column : Option String) (value : Value) (func : Option String) : Except Err Query :=
  let f := func.getD "filter_by"
  if (invalid_methods qc).contains f then .error (raise_error [f] [])
  else
    match mtab f with
    | some m => m cls q column value
    | none => .error (.attributeError f)

/-- BaseQueryColumn.handle: exposure check, then method dispatch. -/
def base_handle (mtab : MethodsTab) (qc : QueryColumnCls) (cls : ModelCls) (q : Query)
    (column : Option String) (value : Value) (func : Option String) : Except Err Query :=
  match check_exposed_column cls column with
  | .error e => .error e
  | .ok _ => handle_methodWith mtab qc cls q column value func

/-- FormatedQueryColumn reverse value-map lookup: the label maps back to
its stored value, an unknown label raises a field error listing the valid
labels (quoting characters of the source message elided). -/
def reverse_value_map (cls : ModelCls) (column : String) (query_value : String) :
    Except Err Value :=
  let vm := (alookup cls.valueMaps column).getD []
  match vm.find? (fun p => p.2 = query_value) with
  | some p => .ok (.int p.1)
  | none =>
    .error (.invalidForm (.fields column
      [query_value ++ " is not a valid parameter for " ++ column ++
        ". Valid options are: " ++ String.intercalate ", " (vm.map Prod.snd)]))

/-- Dispatch of handle through the handler classes of columns.py.
DateTimeQueryColumn converts an int or str value from epoch seconds
before the base handling (int of a non-numeric string being an uncaught
ValueError); FormatedQueryColumn replaces the exposure-checked string
value via its reverse value map; every other class is the base behavior
with its own invalid list. -/
def handleWith (mtab : MethodsTab) (qc : QueryColumnCls) (cls : ModelCls) (q : Query)
    (column : Option String) (value : Value) (func : Option String) : Except Err Query :=
  match qc with
  | .dateTime =>
    (match value with
     | .str s =>
       (match pyInt? s with
        | some n => base_handle mtab qc cls q column (.timestamp n) func
        | none => .error (.valueError s))
     | .int n => base_handle mtab qc cls q column (.timestamp n) func
     | _ => base_handle mtab qc cls q column value func)
  | .formatted =>
    (match check_exposed_column cls column with
     | .error e => .error e
     | .ok _ =>
       match value with
       | .str s =>
         (match column with
          | some c =>
            (match reverse_value_map cls c s with
             | .ok v2 => handle_methodWith mtab qc cls q column v2 func
             | .error e => .error e)
          | none => .error (.typeError "getattr"))
       | _ => handle_methodWith mtab qc cls q column value func)
  | _ => base_handle mtab qc cls q column value func

/-- Key of the type-to-handler registry lookup in
QueryTransformer.implement: type_cls stays None for a missing or falsy
column name or an InvalidRequestError, is the column type class when it
is readable, and is the literal string naming PropertyQueryColumn when
reading it raises AttributeError. -/
inductive TypeKey
  | noneKey
  | typeKey (t : ColType)
  | propertyKey
deriving DecidableEq

/-- The module-level query_columns registry of columns.py, built by the
metaclass at import: the base class registers its None impl, each subclass
registers its impl types.  Unregistered types (and the PropertyQueryColumn
string, which names no class) resolve to nothing, so the lookup default
applies. -/
def query_columns_registry : TypeKey → Option QueryColumnCls
  | .noneKey => some .base
  | .typeKey .integer => some .integer
  | .typeKey .boolean => some .boolean
  | .typeKey .string => some .string
  | .typeKey .unicodeSafe => some .string
  | .typeKey .dateTime => some .dateTime
  | .typeKey .formatted => some .formatted
  | .typeKey (.other _) => none
  | .propertyKey => none

/-- The transformer state: target class, optional initial query, and the
two pagination key names read from configuration (PAGINATION_PAGE and
PAGINATION_PER_PAGE). -/
structure Transformer where
  cls : ModelCls
  initial_query : Option Query
  page : String
  per_page : String

/-- One parsed operation instruction: optional column, raw value, optional
function name. -/
abbrev Instr := Option String × String × Option String

/-- The classification test of QueryTransformer.prep_for_impl: a key is
directed to the special branch exactly when it starts with the dollar
sign and its remainder is not an attribute of the model class. -/
def isSpecialKey (cls : ModelCls) (k : String) : Bool :=
  strStartsWithChar k '$' && !(hasattrCls cls (strDrop1 k))

/-- The special branch body of prep_for_impl: a remainder holding the
double underscore splits into column and function, where the exactly-two
unpack of the Python split raises ValueError on more parts; otherwise
the whole remainder is the function and the column is None. -/
def mkSpecial (c : String) (v : String) : Except Err Instr :=
  let parts := splitDunder c.data
  if 2 ≤ parts.length then
    match parts with
    | [col, fn] => .ok (some (String.mk col), v, some (String.mk fn))
    | _ => .error (.valueError "unpack")
  else .ok (none, v, some c)

/-- The deque loop of QueryTransformer.prep_for_impl: plain items are
pushed on the left of the accumulator, special items appended on the
right, iterating the argument mapping in order. -/
def prep_go (cls : ModelCls) : List (String × String) → List Instr → Except Err (List Instr)
  | [], acc => .ok acc
  | (k, v) :: rest, acc =>
    if isSpecialKey cls k then
      match mkSpecial (strDrop1 k) v with
      | .ok i => prep_go cls rest (acc ++ [i])
      | .error e => .error e
    else prep_go cls rest ((some k, v, none) :: acc)

/-- QueryTransformer.prep_for_impl. -/
def prep_for_impl (cls : ModelCls) (kwargs : List (String × String)) : Except Err (List Instr) :=
  prep_go cls kwargs []

/-- The type_cls computation of QueryTransformer.implement. -/
def typeKeyFor (cls : ModelCls) (column : Option String) : TypeKey :=
  match column with
  | none => .noneKey
  | some c =>
    if c = "" then .noneKey
    else
      match alookup cls.attrs c with
      | some (.column ty) => .typeKey ty
      | some .prop => .propertyKey
      | some .invalidReq => .noneKey
      | none => .noneKey

/-- QueryTransformer.implement, parametrized by the methods table: the
registry lookup with BaseQueryColumn as default, then the chosen handler
runs on the instruction (the raw string value entering as a Python str). -/
def implementWith (mtab : MethodsTab) (tr : Transformer) (q : Query) (t : Instr) :
    Except Err Query :=
  let impl := (query_columns_registry (typeKeyFor tr.cls t.1)).getD .base
  handleWith mtab impl tr.cls q t.1 (.str t.2.1) t.2.2

/-- QueryTransformer.implement with the real methods module. -/
def implement (tr : Transformer) (q : Query) (t : Instr) : Except Err Query :=
  implementWith methodsImpl tr q t

/-- The per-page size actually handed to paginate: a caller-supplied
number, or the full count of the filtered query computed at pagination
time (a database round trip, kept symbolic here). -/
inductive PerPage
  | num (n : Int)
  | fullCount
deriving DecidableEq

/-- The pagination call: query, page number, per-page size and the
error_out flag (always False in the source). -/
structure Pagination where
  query : Query
  page : Int
  per_page : PerPage
  error_out : Bool
deriving DecidableEq

/-- One iteration of the loop in pop_pagination_kwargs: the key is the
configured name behind a dollar sign; when present its value is popped
and converted with int, whose ValueError on a non-numeric string is NOT
caught (the except clause names TypeError, which int of a str never
raises). -/
def popPaginationKey (key_name : String)
    (st : List (String × Int) × List (String × String)) :
    Except Err (List (String × Int) × List (String × String)) :=
  let key := "$" ++ key_name
  match alookup st.2 key with
  | none => .ok st
  | some v =>
    match pyInt? v with
    | some n => .ok (dictSet st.1 key_name n, dictRemove st.2 key)
    | none => .error (.valueError v)

/-- QueryTransformer.pop_pagination_kwargs: pops the two dollar-prefixed
pagination keys in order, then, when fewer than both were collected,
forces the page entry to 1. -/
def pop_pagination_kwargs (tr : Transformer) (kwargs : List (String × String)) :
    Except Err (List (String × Int) × List (String × String)) :=
  match popPaginationKey tr.page ([], kwargs) with
  | .error e => .error e
  | .ok st1 =>
    match popPaginationKey tr.per_page st1 with
    | .error e => .error e
    | .ok st =>
      .ok (if st.1.length ≠ 2 then dictSet st.1 tr.page 1 else st.1, st.2)

/-- QueryTransformer.paginate_query: page defaults to 1, per_page to the
full count of the filtered query.  The OperationalError translation of
the source guards a database round trip that the pure model cannot
produce. -/
def paginate_query (tr : Transformer) (q : Query) (paginate : List (String × Int)) :
    Pagination :=
  { query := q
    page := (alookup paginate tr.page).getD 1
    per_page :=
      match alookup paginate tr.per_page with
      | some n => .num n
      | none => .fullCount
    error_out := false }

/-- QueryTransformer.create_query, parametrized by the methods table. -/
def create_queryWith (mtab : MethodsTab) (tr : Transformer) (kwargs : List (String × String)) :
    Except Err Query :=
  match prep_for_impl tr.cls kwargs with
  | .error e => .error e
  | .ok impl_data =>
    let q0 :=
      match tr.initial_query with
      | some q => q
      | none => Query.base tr.cls
    impl_data.foldlM (implementWith mtab tr) q0

/-- QueryTransformer.transform, parametrized by the methods table:
pagination extraction first, then query construction, then pagination. -/
def transformWith (mtab : MethodsTab) (tr : Transformer) (query_args : List (String × String)) :
    Except Err Pagination :=
  match pop_pagination_kwargs tr query_args with
  | .error e => .error e
  | .ok pr =>
    match create_queryWith mtab tr pr.2 with
    | .error e => .error e
    | .ok q => .ok (paginate_query tr q pr.1)

/-- QueryTransformer.transform with the real methods module. -/
def transform (tr : Transformer) (query_args : List (String × String)) :
    Except Err Pagination :=
  transformWith methodsImpl tr query_args

/-- The deployment configuration consumed by the query code. -/
structure Config where
  PAGINATION_PAGE : String
  PAGINATION_PER_PAGE : String
  ACTIVE_TOKENS_ATTR : Option String

/-- config.get of the ownership attribute with its id default. -/
def ownerAttr (cfg : Config) : String :=
  cfg.ACTIVE_TOKENS_ATTR.getD "id"

/-- The caller context read from flask-login current_user: the is_admin
flag (getattr default False for callers lacking it) and the attribute
mapping getattr and hasattr consult. -/
structure User where
  is_admin : Bool
  attrs : List (String × String)

/-- transformer.override_owner_id: for a non-admin caller, when both the
class and the caller have the ownership attribute, the query argument for
that attribute is forced to the caller value. -/
def override_owner_id (cfg : Config) (user : User) (cls : ModelCls)
    (query_args : List (String × String)) : List (String × String) :=
  let attr := ownerAttr cfg
  if !user.is_admin && hasattrCls cls attr && (alookup user.attrs attr).isSome then
    dictSet query_args attr ((alookup user.attrs attr).getD "")
  else query_args

/-- transformer.get_query_args_for_cls: request args updated with the
caller kwargs, then owner-overridden when enforce_owner holds. -/
def get_query_args_for_cls (cfg : Config) (user : User)
    (request_args : List (String × String)) (cls : ModelCls) (enforce_owner : Bool)
    (kwargs : List (String × String)) : List (String × String) :=
  let args := dictUpdate request_args kwargs
  if enforce_owner then override_owner_id cfg user cls args else args

/-- transformer.construct_query. -/
def construct_query (cfg : Config) (user : User) (request_args : List (String × String))
    (cls : ModelCls) (enforce_owner : Bool) (kwargs : List (String × String)) :
    Except Err Pagination :=
  let query_args := get_query_args_for_cls cfg user request_args cls enforce_owner kwargs
  transform ⟨cls, none, cfg.PAGINATION_PAGE, cfg.PAGINATION_PER_PAGE⟩ query_args

/-- transformer.extend_query: the class is the primary entity of the
existing query. -/
def extend_query (cfg : Config) (user : User) (request_args : List (String × String))
    (query : Query) (enforce_owner : Bool) (kwargs : List (String × String)) :
    Except Err Pagination :=
  let query_args := get_query_args_for_cls cfg user request_args query.cls enforce_owner kwargs
  transform ⟨query.cls, some query, cfg.PAGINATION_PAGE, cfg.PAGINATION_PER_PAGE⟩ query_args

/-!
Concrete fixtures for witnesses and counterexamples: a model class with an
integer ownership column, string, boolean and datetime columns, and one
column whose declared type is not registered in the query_columns
registry.
-/

def demoCls : ModelCls :=
  { attrs := [("id", .column .integer), ("user_id", .column .integer),
              ("name", .column .string), ("status", .column .string),
              ("flag", .column .boolean), ("created", .column .dateTime),
              ("blob", .column (.other "JSONType"))]
    exposed_fields := ["id", "user_id", "name", "status", "flag", "blob"]
    valueMaps := [] }

def demoTr : Transformer :=
  { cls := demoCls, initial_query := none, page := "page", per_page := "per_page" }

def demoQuery : Query := Query.base demoCls

def demoConfig : Config :=
  { PAGINATION_PAGE := "page", PAGINATION_PER_PAGE := "per_page",
    ACTIVE_TOKENS_ATTR := some "user_id" }

/-- The value coercion written on IntegerQueryColumn.filter_by (and
inherited by BooleanQueryColumn): literal True and False strings become
booleans.  In the source this method is dead code: handle_method
dispatches getattr on the methods module, never on the handler instance,
and the super call inside it targets a method that does not exist. -/
def integer_filter_by_coerce (value : Value) : Value :=
  if value = .str "True" then .bool true
  else if value = .str "False" then .bool false
  else value

/-- The plain-key instructions of an argument mapping, in mapping order:
the items the prep_for_impl loop pushes on the left of the deque. -/
def plainInstrs (cls : ModelCls) : List (String × String) → List Instr
  | [] => []
  | (k, v) :: rest =>
    if isSpecialKey cls k then plainInstrs cls rest
    else (some k, v, none) :: plainInstrs cls rest

/-- The special-key instructions of an argument mapping, in mapping order:
the items the prep_for_impl loop appends on the right of the deque. -/
def specialInstrs (cls : ModelCls) : List (String × String) → Except Err (List Instr)
  | [] => .ok []
  | (k, v) :: rest =>
    if isSpecialKey cls k then
      match mkSpecial (strDrop1 k) v with
      | .ok i =>
        (match specialInstrs cls rest with
         | .ok sp => .ok (i :: sp)
         | .error e => .error e)
      | .error e => .error e
    else specialInstrs cls rest

/-- Claim C2: the spec says a key containing the double underscore and not
starting with the dollar sign is split into column and function, so that
name icontains ACME matches case-insensitively.  The code splits only
inside the dollar branch (contradicting the transform docstring of the
source, which states these keys do not need the dollar sign): the bare
key is classified as a plain equality column and fails the exposure
check, while only the dollar-prefixed form yields the case-insensitive
substring filter. -/
theorem C2_dunder_without_dollar_not_split :
    transform demoTr [("name__icontains", "ACME")] =
      .error (.invalidForm (.fields "name__icontains"
        ["Invalid Argument: Field not exposed"])) ∧
    transform demoTr [("$name__icontains", "ACME")] =
      .ok ⟨⟨demoCls, false, [.filt (.icontainsF "name" "acme")]⟩, 1, .fullCount, false⟩ := by
  decide

/-- Claim C3 counterexample: two plain keys come out of the parser in
reversed relative order, refuting the claim that input order is preserved
among instructions of the same shape. -/
theorem C3_plain_order_reversed_counterexample :
    prep_for_impl demoCls [("a", "1"), ("b", "2")] =
      .ok [(some "b", "2", none), (some "a", "1", none)] ∧
    ([(some "b", "2", none), (some "a", "1", none)] : List Instr) ≠
      [(some "a", "1", none), (some "b", "2", none)] := by
  decide

/-- Claim C4 counterexample: with plain page and per_page keys nothing is
popped (the code pops only the dollar-prefixed pagination keys), the
pagination falls back to its default, and the leftover keys are
classified as filter instructions, here failing the exposure check. -/
theorem C4_plain_pagination_keys_counterexample :
    pop_pagination_kwargs demoTr
        [("status", "active"), ("$order_by", "-created"), ("page", "1"), ("per_page", "2")] =
      .ok ([("page", 1)],
        [("status", "active"), ("$order_by", "-created"), ("page", "1"), ("per_page", "2")]) ∧
    transform demoTr
        [("status", "active"), ("$order_by", "-created"), ("page", "1"), ("per_page", "2")] =
      .error (.invalidForm (.fields "per_page" ["Invalid Argument: Field not exposed"])) := by
  decide

/-- Claim C4 amended: the pagination keys are the dollar-prefixed page and
per_page; those are removed from the mapping before queue classification
and converted to integers, and the amended scenario mapping paginates
with page 1 and per-page size 2 while status filters and order_by sorts
descending. -/
theorem C4_dollar_pagination_keys :
    transform demoTr
        [("status", "active"), ("$order_by", "-created"), ("$page", "1"), ("$per_page", "2")] =
      .ok ⟨⟨demoCls, false, [.filter_by "status" (.str "active"), .order_by "created" true]⟩,
        1, .num 2, false⟩ := by
  decide

/-- Claim C6: a non-integer-parseable pagination value is not silently
ignored; the int conversion raises ValueError, which the except clause
(written for TypeError) does not catch, so transform raises. -/
theorem C6_nonint_pagination_value_raises :
    transform demoTr [("$page", "abc")] = .error (.valueError "abc") := by
  decide

/-- Claim C8 counterexample: a column of unregistered type resolves to the
default handler, whose deny-list is empty, so dispatching icontains does
not raise the query-construction error but runs the operator. -/
theorem C8_default_handler_allows_icontains_counterexample :
    query_columns_registry (typeKeyFor demoCls (some "blob")) = none ∧
    implementWith methodsImpl demoTr demoQuery (some "blob", "ACME", some "icontains") =
      .ok (demoQuery.push (.filt (.icontainsF "blob" "acme"))) := by
  decide

/-- Claim C9: a plain equality filter on an exposed boolean column with
the literal string True is NOT coerced to a boolean: the literal string
reaches the filter unchanged, because the coercion override on the
integer handler is dead code (handle_method dispatches to the methods
module, never to the handler instance method). -/
theorem C9_true_string_not_coerced :
    implementWith methodsImpl demoTr demoQuery (some "flag", "True", none) =
      .ok (demoQuery.push (.filter_by "flag" (.str "True"))) ∧
    integer_filter_by_coerce (.str "True") = .bool true ∧
    Value.str "True" ≠ .bool true := by
  decide

/-- Invariant of the prep_for_impl deque loop: a successful run yields the
plain instructions reversed, then the starting accumulator, then the
special instructions in input order. -/
theorem prep_go_spec (cls : ModelCls) :
    ∀ (kwargs : List (String × String)) (acc res : List Instr),
      prep_go cls kwargs acc = .ok res →
      ∃ sp, specialInstrs cls kwargs = .ok sp ∧
        res = (plainInstrs cls kwargs).reverse ++ acc ++ sp
  | [], acc, res, h => by
    simp only [prep_go, Except.ok.injEq] at h
    exact ⟨[], rfl, by simp [plainInstrs, specialInstrs, h]⟩
  | (k, v) :: rest, acc, res, h => by
    by_cases hk : isSpecialKey cls k
    · simp only [prep_go, hk, if_true] at h
      cases hmk : mkSpecial (strDrop1 k) v with
      | ok i =>
        rw [hmk] at h
        obtain ⟨sp, hsp, hres⟩ := prep_go_spec cls rest (acc ++ [i]) res h
        refine ⟨i :: sp, ?_, ?_⟩
        · simp [specialInstrs, hk, hmk, hsp]
        · simp [plainInstrs, hk, hres, List.append_assoc]
      | error e => rw [hmk] at h; simp at h
    · simp only [prep_go, hk, if_false, Bool.false_eq_true] at h
      obtain ⟨sp, hsp, hres⟩ := prep_go_spec cls rest ((some k, v, none) :: acc) res h
      refine ⟨sp, ?_, ?_⟩
      · simp [specialInstrs, hk, hsp]
      · simp [plainInstrs, hk, hres, List.append_assoc]

/-- Claim C3 (amended): every plain-equality instruction is placed
strictly before every special instruction regardless of input order, and
among the special instructions input order is preserved, but among the
plain instructions the input order is REVERSED (each plain item is pushed
on the left of the deque, in front of the previously pushed ones). -/
theorem C3_plains_before_specials (cls : ModelCls) (kwargs : List (String × String))
    (res : List Instr) (h : prep_for_impl cls kwargs = .ok res) :
    ∃ sp, specialInstrs cls kwargs = .ok sp ∧
      res = (plainInstrs cls kwargs).reverse ++ sp := by
  obtain ⟨sp, hsp, hres⟩ := prep_go_spec cls kwargs [] res h
  exact ⟨sp, hsp, by simpa using hres⟩

/-- Witness for C3: a concrete mapping with plain keys around a special
key, parsed as the reversed plains followed by the special. -/
theorem C3_plains_before_specials_witness :
    ∃ sp, specialInstrs demoCls [("a", "1"), ("$order_by", "-created"), ("b", "2")] = .ok sp ∧
      ([(some "b", "2", none), (some "a", "1", none), (none, "-created", some "order_by")] :
          List Instr) =
        (plainInstrs demoCls [("a", "1"), ("$order_by", "-created"), ("b", "2")]).reverse ++ sp :=
  C3_plains_before_specials demoCls _ _ (by decide)

theorem dollar_page_eq : ("$" ++ "page" : String) = "$page" := rfl

theorem dollar_per_page_eq : ("$" ++ "per_page" : String) = "$per_page" := rfl

/-- Lookup is unchanged by removal of a different key. -/
theorem alookup_dictRemove_ne {α : Type} (k k2 : String) (hne : k2 ≠ k) :
    ∀ d : List (String × α), alookup (dictRemove d k) k2 = alookup d k2
  | [] => rfl
  | p :: rest => by
    have hne2 : ¬ k = k2 := fun hh => hne hh.symm
    by_cases hp : p.1 = k
    · have hpk : ¬ p.1 = k2 := fun hh => hne (hh ▸ hp)
      simp [dictRemove, hp, alookup, hpk, hne2, alookup_dictRemove_ne k k2 hne rest]
    · by_cases hq : p.1 = k2
      · simp [dictRemove, hp, alookup, hq, hne]
      · simp [dictRemove, hp, alookup, hq, hne, alookup_dictRemove_ne k k2 hne rest]

/-- Characterization of pop_pagination_kwargs without a per_page
directive: whatever page value was collected, the final paginate mapping
is exactly the page-1 default. -/
theorem pop_no_per_page (tr : Transformer) (args : List (String × String))
    (pag : List (String × Int)) (rest : List (String × String))
    (h1 : tr.page = "page") (h2 : tr.per_page = "per_page")
    (hnone : alookup args "$per_page" = none)
    (hpop : pop_pagination_kwargs tr args = .ok (pag, rest)) :
    pag = [("page", 1)] := by
  have hrem : alookup (dictRemove args "$page") "$per_page" = alookup args "$per_page" :=
    alookup_dictRemove_ne "$page" "$per_page" (by decide) args
  cases hP : alookup args "$page" with
  | none =>
    simp only [pop_pagination_kwargs, popPaginationKey, h1, h2, dollar_page_eq,
      dollar_per_page_eq, hP, hnone] at hpop
    simp [dictSet, alookup] at hpop
    exact hpop.1.symm
  | some v =>
    cases hpi : pyInt? v with
    | none =>
      simp only [pop_pagination_kwargs, popPaginationKey, h1, h2, dollar_page_eq,
        dollar_per_page_eq, hP, hpi] at hpop
      exact Except.noConfusion hpop
    | some n =>
      simp only [pop_pagination_kwargs, popPaginationKey, h1, h2, dollar_page_eq,
        dollar_per_page_eq, hP, hpi, hrem, hnone] at hpop
      simp [dictSet, alookup] at hpop
      exact hpop.1.symm

/-- Characterization of pop_pagination_kwargs with a per_page directive
but no page directive: the value parses and the final paginate mapping
holds it together with the page-1 default. -/
theorem pop_per_page_only (tr : Transformer) (args : List (String × String))
    (pag : List (String × Int)) (rest : List (String × String)) (v : String)
    (h1 : tr.page = "page") (h2 : tr.per_page = "per_page")
    (hpnone : alookup args "$page" = none)
    (hv : alookup args "$per_page" = some v)
    (hpop : pop_pagination_kwargs tr args = .ok (pag, rest)) :
    ∃ n, pyInt? v = some n ∧ pag = [("per_page", n), ("page", 1)] := by
  cases hpi : pyInt? v with
  | none =>
    exfalso
    simp only [pop_pagination_kwargs, popPaginationKey, h1, h2, dollar_page_eq,
      dollar_per_page_eq, hpnone, hv, hpi] at hpop
    exact Except.noConfusion hpop
  | some n =>
    refine ⟨n, rfl, ?_⟩
    simp only [pop_pagination_kwargs, popPaginationKey, h1, h2, dollar_page_eq,
      dollar_per_page_eq, hpnone, hv, hpi] at hpop
    simp [dictSet, alookup] at hpop
    exact hpop.1.symm

/-- Splitting of a successful transform into its three stages. -/
theorem transform_ok_parts (tr : Transformer) (args : List (String × String))
    (pgn : Pagination) (h : transform tr args = .ok pgn) :
    ∃ pag rest q, pop_pagination_kwargs tr args = .ok (pag, rest) ∧
      create_queryWith methodsImpl tr rest = .ok q ∧ pgn = paginate_query tr q pag := by
  unfold transform transformWith at h
  cases hpop : pop_pagination_kwargs tr args with
  | error e =>
    simp only [hpop] at h
    exact Except.noConfusion h
  | ok pr =>
    obtain ⟨pag, rest⟩ := pr
    simp only [hpop] at h
    cases hcq : create_queryWith methodsImpl tr rest with
    | error e =>
      simp only [hcq] at h
      exact Except.noConfusion h
    | ok q =>
      simp only [hcq, Except.ok.injEq] at h
      exact ⟨pag, rest, q, rfl, hcq, h.symm⟩

/-- Claim C5: when at most one pagination directive is present, a per_page
directive without a page directive paginates with page 1, and an absent
per_page directive makes the per-page size the full count of the filtered
query at pagination time. -/
theorem C5_pagination_defaulting (tr : Transformer) (args : List (String × String))
    (pgn : Pagination) (h1 : tr.page = "page") (h2 : tr.per_page = "per_page")
    (h : transform tr args = .ok pgn) :
    ((alookup args "$per_page").isSome = true → alookup args "$page" = none →
      pgn.page = 1) ∧
    (alookup args "$per_page" = none → pgn.per_page = PerPage.fullCount) := by
  obtain ⟨pag, rest, q, hpop, hcq, hpgn⟩ := transform_ok_parts tr args pgn h
  subst hpgn
  constructor
  · intro hsome hpnone
    obtain ⟨v, hv⟩ := Option.isSome_iff_exists.mp hsome
    obtain ⟨n, hpi, hpag⟩ := pop_per_page_only tr args pag rest v h1 h2 hpnone hv hpop
    subst hpag
    simp [paginate_query, alookup, h1]
  · intro hnone
    have hpag := pop_no_per_page tr args pag rest h1 h2 hnone hpop
    subst hpag
    simp [paginate_query, alookup, h1, h2]

/-- Witness for C5: a mapping holding only a per-page directive paginates
with page 1, and a mapping holding only a page directive keeps the
full-count per-page size. -/
theorem C5_pagination_defaulting_witness :
    (transform demoTr [("$per_page", "10")] =
      .ok ⟨demoQuery, 1, .num 10, false⟩) ∧
    ((⟨demoQuery, 1, .num 10, false⟩ : Pagination).page = 1) ∧
    (transform demoTr [("$page", "2")] = .ok ⟨demoQuery, 1, .fullCount, false⟩) ∧
    ((⟨demoQuery, 1, .fullCount, false⟩ : Pagination).per_page = .fullCount) := by
  refine ⟨by decide, ?_, by decide, ?_⟩
  · exact (C5_pagination_defaulting demoTr [("$per_page", "10")] _ rfl rfl
      (by decide)).1 (by decide) (by decide)
  · exact (C5_pagination_defaulting demoTr [("$page", "2")] _ rfl rfl
      (by decide)).2 (by decide)

/-- Claim C10: whenever the per_page directive is absent, the page number
actually used is 1 even when a page directive with another value was
supplied; the pop code overwrites the collected page entry with the
default. -/
theorem C10_page_forced_to_one_without_per_page (tr : Transformer)
    (args : List (String × String)) (pgn : Pagination)
    (h1 : tr.page = "page") (h2 : tr.per_page = "per_page")
    (hnone : alookup args "$per_page" = none)
    (h : transform tr args = .ok pgn) :
    pgn.page = 1 := by
  obtain ⟨pag, rest, q, hpop, hcq, hpgn⟩ := transform_ok_parts tr args pgn h
  subst hpgn
  have hpag := pop_no_per_page tr args pag rest h1 h2 hnone hpop
  subst hpag
  simp [paginate_query, alookup, h1]

/-- Witness for C10: a supplied page directive of 5 with no per-page
directive is overridden to page 1. -/
theorem C10_page_forced_to_one_witness :
    transform demoTr [("$page", "5")] = .ok ⟨demoQuery, 1, .fullCount, false⟩ ∧
    (⟨demoQuery, 1, PerPage.fullCount, false⟩ : Pagination).page = 1 :=
  ⟨by decide, C10_page_forced_to_one_without_per_page demoTr [("$page", "5")] _
    rfl rfl (by decide) (by decide)⟩

/-- Claim C7: dispatching icontains on an exposed column of integer or
boolean type raises the query-construction error naming the offending
function key, and it does so in the handler before any operator method or
database interaction: the result is this error for EVERY possible methods
table, so no operator is consulted.  A Python attribute name is a
nonempty identifier, hence the nonemptiness hypothesis on the column
name. -/
theorem C7_icontains_rejected_on_numeric (mtab : MethodsTab) (tr : Transformer)
    (q : Query) (c v : String) (hne : c ≠ "")
    (hty : alookup tr.cls.attrs c = some (.column .integer) ∨
      alookup tr.cls.attrs c = some (.column .boolean))
    (hexp : tr.cls.exposed_fields.contains c = true) :
    implementWith mtab tr q (some c, v, some "icontains") =
      .error (.invalidForm (.query_construction ["icontains"] [])) := by
  have hmem : c ∈ tr.cls.exposed_fields := by simpa using hexp
  rcases hty with hty | hty <;>
    simp [implementWith, typeKeyFor, query_columns_registry, handleWith, base_handle,
      check_exposed_column, handle_methodWith, invalid_methods, raise_error,
      hne, hty, hexp, hmem]

/-- Witness for C7: the integer id column of the demo class rejects
icontains with the query-construction error. -/
theorem C7_icontains_rejected_witness :
    implementWith methodsImpl demoTr demoQuery (some "id", "x", some "icontains") =
      .error (.invalidForm (.query_construction ["icontains"] [])) :=
  C7_icontains_rejected_on_numeric methodsImpl demoTr demoQuery "id" "x"
    (by decide) (Or.inl (by decide)) (by decide)

/-- Claim C8 (amended): a column whose declared type is not registered in
the registry dispatches to the default base handler for every function,
the default deny-list is empty, and in particular icontains is not
rejected but forwarded to the icontains operator; the function-less path
of the default handler likewise forwards to the equality filter. -/
theorem C8_unregistered_type_default_handler (mtab : MethodsTab) (tr : Transformer)
    (q : Query) (c v : String) (t : ColType) (fn : Option String) (hne : c ≠ "")
    (hreg : query_columns_registry (.typeKey t) = none)
    (hattr : alookup tr.cls.attrs c = some (.column t))
    (hexp : tr.cls.exposed_fields.contains c = true) :
    implementWith mtab tr q (some c, v, fn) =
      handle_methodWith mtab .base tr.cls q (some c) (.str v) fn ∧
    invalid_methods .base = [] ∧
    implementWith methodsImpl tr q (some c, v, some "icontains") =
      icontains_m tr.cls q (some c) (.str v) ∧
    implementWith methodsImpl tr q (some c, v, none) =
      filter_by_m tr.cls q (some c) (.str v) := by
  have hmem : c ∈ tr.cls.exposed_fields := by simpa using hexp
  refine ⟨?_, rfl, ?_, ?_⟩ <;>
    simp [implementWith, typeKeyFor, handleWith, base_handle,
      check_exposed_column, handle_methodWith, invalid_methods, methodsImpl,
      hne, hreg, hattr, hexp, hmem]

/-- Witness for C8: the demo column of unregistered JSON type goes through
the base handler, where icontains is forwarded, not rejected. -/
theorem C8_unregistered_type_default_handler_witness :
    implementWith methodsImpl demoTr demoQuery (some "blob", "x", none) =
      handle_methodWith methodsImpl .base demoTr.cls demoQuery (some "blob")
        (.str "x") none ∧
    invalid_methods .base = [] ∧
    implementWith methodsImpl demoTr demoQuery (some "blob", "x", some "icontains") =
      icontains_m demoTr.cls demoQuery (some "blob") (.str "x") ∧
    implementWith methodsImpl demoTr demoQuery (some "blob", "x", none) =
      filter_by_m demoTr.cls demoQuery (some "blob") (.str "x") :=
  C8_unregistered_type_default_handler methodsImpl demoTr demoQuery "blob" "x"
    (.other "JSONType") none (by decide) (by decide) (by decide) (by decide)

/-- Masking function blanking the value stored under the ownership key. -/
def maskF (attr : String) (p : String × String) : String × String :=
  if p.1 = attr then (p.1, "") else p

/-- An argument mapping with the value under the ownership key blanked:
two mappings are runs differing only in that forged value exactly when
their masks agree. -/
def maskKey (attr : String) (args : List (String × String)) : List (String × String) :=
  args.map (maskF attr)

theorem maskF_fst (attr : String) (p : String × String) : (maskF attr p).1 = p.1 := by
  unfold maskF
  split <;> rfl

theorem map_eq_of_map_eq {α β γ : Type} (f : α → β) (g : α → γ)
    (hfg : ∀ p q, f p = f q → g p = g q) :
    ∀ a b : List α, a.map f = b.map f → a.map g = b.map g
  | [], [], _ => rfl
  | [], _ :: _, h => by simp at h
  | _ :: _, [], h => by simp at h
  | p :: a, q :: b, h => by
    simp only [List.map_cons, List.cons.injEq] at h
    simp only [List.map_cons, List.cons.injEq]
    exact ⟨hfg p q h.1, map_eq_of_map_eq f g hfg a b h.2⟩

theorem mask_keys (attr : String) :
    ∀ a : List (String × String), (maskKey attr a).map Prod.fst = a.map Prod.fst
  | [] => rfl
  | p :: rest => by simp [maskKey, maskF_fst, mask_keys attr rest]

theorem alookup_isSome_of_keys_eq {α β : Type} :
    ∀ (a : List (String × α)) (b : List (String × β)) (k : String),
      a.map Prod.fst = b.map Prod.fst →
      (alookup a k).isSome = (alookup b k).isSome
  | [], [], _, _ => rfl
  | [], _ :: _, _, h => by simp at h
  | _ :: _, [], _, h => by simp at h
  | p :: a, q :: b, k, h => by
    simp only [List.map_cons, List.cons.injEq] at h
    by_cases hp : p.1 = k
    · simp [alookup, hp, h.1 ▸ hp]
    · have hq : ¬ q.1 = k := h.1 ▸ hp
      simp [alookup, hp, hq, alookup_isSome_of_keys_eq a b k h.2]

theorem maskKey_eq_self_of_none (attr : String) :
    ∀ a : List (String × String), alookup a attr = none → maskKey attr a = a
  | [], _ => rfl
  | p :: rest, h => by
    by_cases hp : p.1 = attr
    · simp [alookup, hp] at h
    · have h2 : alookup rest attr = none := by simpa [alookup, hp] using h
      have ih := maskKey_eq_self_of_none attr rest h2
      simp only [maskKey] at ih
      simp [maskKey, maskF, hp, ih]

theorem alookup_map_replace (k v : String) :
    ∀ a : List (String × String), (alookup a k).isSome = true →
      alookup (a.map (fun p => if p.1 = k then (k, v) else p)) k = some v
  | [], h => by simp [alookup] at h
  | p :: rest, h => by
    by_cases hp : p.1 = k
    · rw [List.map_cons, if_pos hp]
      simp [alookup]
    · have h2 : (alookup rest k).isSome = true := by simpa [alookup, hp] using h
      rw [List.map_cons, if_neg hp]
      simp [alookup, hp, alookup_map_replace k v rest h2]

theorem alookup_append_of_none {α : Type} (k : String) (x : α) :
    ∀ a : List (String × α), alookup a k = none →
      alookup (a ++ [(k, x)]) k = some x
  | [], _ => by simp [alookup]
  | p :: rest, h => by
    by_cases hp : p.1 = k
    · simp [alookup, hp] at h
    · have h2 : alookup rest k = none := by simpa [alookup, hp] using h
      simp [alookup, hp, alookup_append_of_none k x rest h2]

theorem alookup_dictSet_self (k v : String) (a : List (String × String)) :
    alookup (dictSet a k v) k = some v := by
  unfold dictSet
  by_cases ha : (alookup a k).isSome
  · rw [if_pos ha]
    exact alookup_map_replace k v a ha
  · rw [if_neg ha]
    exact alookup_append_of_none k v a (Option.not_isSome_iff_eq_none.mp ha)

/-- Assigning the same key and value preserves mask agreement. -/
theorem dictSet_maskEq (attr k v : String) (a b : List (String × String))
    (hmask : maskKey attr a = maskKey attr b) :
    maskKey attr (dictSet a k v) = maskKey attr (dictSet b k v) := by
  have hkeys : a.map Prod.fst = b.map Prod.fst := by
    have hc := congrArg (List.map Prod.fst) hmask
    rwa [mask_keys, mask_keys] at hc
  have hsome := alookup_isSome_of_keys_eq a b k hkeys
  unfold dictSet
  by_cases ha : (alookup a k).isSome
  · rw [if_pos ha, if_pos (hsome ▸ ha)]
    unfold maskKey
    rw [List.map_map, List.map_map]
    refine map_eq_of_map_eq (maskF attr)
      (maskF attr ∘ fun p => if p.1 = k then (k, v) else p) ?_ a b hmask
    intro p q hpq
    have hfst : p.1 = q.1 := by
      have hc := congrArg Prod.fst hpq
      rwa [maskF_fst, maskF_fst] at hc
    by_cases hp : p.1 = k
    · simp [Function.comp, hp, hfst ▸ hp]
    · have hq : ¬ q.1 = k := hfst ▸ hp
      simp only [Function.comp, hp, hq, if_false]
      simpa using hpq
  · rw [if_neg ha, if_neg (fun hb => ha (hsome ▸ hb))]
    simp [maskKey, hmask, List.map_append] at hmask ⊢
    exact hmask

/-- Updating with the same keyword mapping preserves mask agreement. -/
theorem dictUpdate_maskEq (attr : String) :
    ∀ (kws a b : List (String × String)),
      maskKey attr a = maskKey attr b →
      maskKey attr (dictUpdate a kws) = maskKey attr (dictUpdate b kws)
  | [], _, _, h => h
  | p :: kws, a, b, h =>
    dictUpdate_maskEq attr kws _ _ (dictSet_maskEq attr p.1 p.2 a b h)

/-- Two argument mappings agreeing under the ownership mask come out of
the override identical. -/
theorem override_owner_id_maskEq (cfg : Config) (user : User) (cls : ModelCls)
    (a b : List (String × String))
    (hadmin : user.is_admin = false)
    (hcls : hasattrCls cls (ownerAttr cfg) = true)
    (huser : (alookup user.attrs (ownerAttr cfg)).isSome = true)
    (hmask : maskKey (ownerAttr cfg) a = maskKey (ownerAttr cfg) b) :
    override_owner_id cfg user cls a = override_owner_id cfg user cls b := by
  unfold override_owner_id
  simp only [hadmin, hcls, huser, Bool.not_false, Bool.true_and, Bool.and_self, if_true]
  have hkeys : a.map Prod.fst = b.map Prod.fst := by
    have hc := congrArg (List.map Prod.fst) hmask
    rwa [mask_keys, mask_keys] at hc
  have hsome := alookup_isSome_of_keys_eq a b (ownerAttr cfg) hkeys
  unfold dictSet
  by_cases ha : (alookup a (ownerAttr cfg)).isSome
  · rw [if_pos ha, if_pos (hsome ▸ ha)]
    refine map_eq_of_map_eq (maskF (ownerAttr cfg))
      (fun p => if p.1 = ownerAttr cfg then
        (ownerAttr cfg, (alookup user.attrs (ownerAttr cfg)).getD "") else p) ?_ a b hmask
    intro p q hpq
    have hfst : p.1 = q.1 := by
      have hc := congrArg Prod.fst hpq
      rwa [maskF_fst, maskF_fst] at hc
    by_cases hp : p.1 = ownerAttr cfg
    · simp [hp, hfst ▸ hp]
    · have hq : ¬ q.1 = ownerAttr cfg := hfst ▸ hp
      simp only [hp, hq, if_false]
      simpa [maskF, hp, hq] using hpq
  · rw [if_neg ha, if_neg (fun hb => ha (hsome ▸ hb))]
    have hanone : alookup a (ownerAttr cfg) = none := Option.not_isSome_iff_eq_none.mp ha
    have hbnone : alookup b (ownerAttr cfg) = none :=
      Option.not_isSome_iff_eq_none.mp (fun hb => ha (hsome ▸ hb))
    rw [maskKey_eq_self_of_none _ a hanone, maskKey_eq_self_of_none _ b hbnone] at hmask
    rw [hmask]

/-- Claim C1: for a non-administrative caller owning an identifier, on an
entity having the ownership column, the constructed query arguments are
independent of any caller-supplied (forged) value for that column: the
merged arguments of two runs differing only in that value coincide, the
ownership entry equals the caller identifier, and construct and extend
give identical results on both runs. -/
theorem C1_owner_scope_forced (cfg : Config) (user : User) (cls : ModelCls)
    (args1 args2 kwargs : List (String × String))
    (hadmin : user.is_admin = false)
    (hcls : hasattrCls cls (ownerAttr cfg) = true)
    (huser : (alookup user.attrs (ownerAttr cfg)).isSome = true)
    (hmask : maskKey (ownerAttr cfg) args1 = maskKey (ownerAttr cfg) args2) :
    get_query_args_for_cls cfg user args1 cls true kwargs =
      get_query_args_for_cls cfg user args2 cls true kwargs ∧
    alookup (get_query_args_for_cls cfg user args1 cls true kwargs) (ownerAttr cfg) =
      alookup user.attrs (ownerAttr cfg) ∧
    construct_query cfg user args1 cls true kwargs =
      construct_query cfg user args2 cls true kwargs ∧
    (∀ q : Query, q.cls = cls →
      extend_query cfg user args1 q true kwargs =
        extend_query cfg user args2 q true kwargs) := by
  have hupd := dictUpdate_maskEq (ownerAttr cfg) kwargs args1 args2 hmask
  have hargs : get_query_args_for_cls cfg user args1 cls true kwargs =
      get_query_args_for_cls cfg user args2 cls true kwargs := by
    unfold get_query_args_for_cls
    simp only [if_true]
    exact override_owner_id_maskEq cfg user cls _ _ hadmin hcls huser hupd
  refine ⟨hargs, ?_, ?_, ?_⟩
  · unfold get_query_args_for_cls override_owner_id
    simp only [hadmin, hcls, huser, Bool.not_false, Bool.true_and, Bool.and_self, if_true]
    obtain ⟨uid, huid⟩ := Option.isSome_iff_exists.mp huser
    rw [alookup_dictSet_self, huid]
    simp
  · unfold construct_query
    rw [hargs]
  · intro q hq
    unfold extend_query
    rw [hq, hargs]

def demoUser : User := { is_admin := false, attrs := [("user_id", "42")] }

/-- Witness for C1: a non-admin caller with identifier 42 forging 999 or 7
for the ownership column gets identical query arguments with the entry
forced to 42. -/
theorem C1_owner_scope_forced_witness :
    get_query_args_for_cls demoConfig demoUser [("user_id", "999")] demoCls true [] =
      get_query_args_for_cls demoConfig demoUser [("user_id", "7")] demoCls true [] ∧
    alookup (get_query_args_for_cls demoConfig demoUser [("user_id", "999")] demoCls true [])
        (ownerAttr demoConfig) = alookup demoUser.attrs (ownerAttr demoConfig) ∧
    construct_query demoConfig demoUser [("user_id", "999")] demoCls true [] =
      construct_query demoConfig demoUser [("user_id", "7")] demoCls true [] ∧
    (∀ q : Query, q.cls = demoCls →
      extend_query demoConfig demoUser [("user_id", "999")] q true [] =
        extend_query demoConfig demoUser [("user_id", "7")] q true []) :=
  C1_owner_scope_forced demoConfig demoUser demoCls [("user_id", "999")] [("user_id", "7")]
    [] (by decide) (by decide) (by decide) (by decide)

end Powernap
